import Mathlib

/-!
Verification development for the feissari game backend.

The definitions below are a shallow embedding of the TypeScript backend:
`llmService.ts` (the Conversation Oracle adapter, class `LLMService`) and
`index.ts` (the express handlers `POST /api/game` and `PUT /api/game/:gameId`,
plus the helpers `calculateDefeatedFeissari` and `calculateGameScore`).

JavaScript dynamic values that the adapter type-checks with `typeof` are
embedded as the inductive `JVal`; Firestore documents are embedded as Lean
structures, and each Firestore query used by the handlers is embedded as a
pure function over the lists holding the collections involved.  The external
text-generation call is an input (`OracleOutcome`): either a transport or
JSON-parse failure, or a parsed raw reply whose fields may be of any type.
-/

namespace Feissari

/-- A JavaScript value as seen by the `typeof`-based validation code:
absent field (`undefined`), `null`, boolean, number, string or array. -/
inductive JVal where
  | undef
  | jnull
  | jbool (b : Bool)
  | jnum (n : Int)
  | jstr (s : String)
  | jarr (xs : List JVal)

/-- An emote of a character: identifier, usage description, asset list
(`types.ts`, interface `Emote`). -/
structure Emote where
  identifier : String
  description : String
  assets : List String
deriving DecidableEq

/-- A salesperson character (`types.ts`, interface `Feissari`). -/
structure Character where
  id : String
  name : String
  roleInstruction : String
  emotes : List Emote
deriving DecidableEq

/-- The validated reply of the Oracle adapter (`types.ts`, interface
`LLMResponse`, newer version with quick actions and threat flag). -/
structure LLMResponse where
  message : String
  balance : Int
  emote : String
  goToNext : Bool
  quickActions : List String
  increaseThreatLevel : Bool
deriving DecidableEq

/-- The raw structured reply as parsed from the generation backend before
validation: every field may hold a JavaScript value of any type. -/
structure RawLLMResponse where
  message : JVal
  balance : JVal
  emote : JVal
  goToNext : JVal
  quickActions : JVal
  increaseThreatLevel : JVal

/-- Outcome of the external text-generation call: a transport error or a
reply that failed to parse as JSON, or a parsed raw reply. -/
inductive OracleOutcome where
  | failure
  | reply (r : RawLLMResponse)

/-- The fixed default quick-action triple
(`llmService.ts`, used in `validateResponse` and in the fallback reply). -/
def defaultQuickActions : List String := ["Tell me more", "Not interested", "Buy now"]

/-- JavaScript `s.trim()`: strip leading and trailing whitespace.  Embedded
as a structurally recursive function over the character list so that it is
kernel-computable. -/
def dropLeadingWs : List Char → List Char
  | [] => []
  | c :: cs => if c.isWhitespace then dropLeadingWs cs else c :: cs

/-- See `dropLeadingWs`: trim both ends of a string. -/
def jsTrim (s : String) : String :=
  ⟨(dropLeadingWs ((dropLeadingWs s.data).reverse)).reverse⟩

/-- `typeof q === 'string' && q.trim()` truthiness for one quick action
(`llmService.ts`, `validateResponse`, quickActions check). -/
def isValidQuickAction : JVal → Bool
  | .jstr s => !(jsTrim s = "")
  | _ => false

/-- Underlying string of a string-typed JavaScript value (only consulted
after `isValidQuickAction` has established the value is a string). -/
def jstrValue : JVal → String
  | .jstr s => s
  | _ => ""

/-- Soft correction of the quickActions field (`llmService.ts`,
`validateResponse`): must be an array of exactly 3 strings that are
non-empty after trimming, otherwise the fixed default triple. -/
def quickActionsOf (v : JVal) : List String :=
  match v with
  | .jarr xs =>
      if xs.length = 3 && xs.all isValidQuickAction then xs.map jstrValue
      else defaultQuickActions
  | _ => defaultQuickActions

/-- Soft correction of the increaseThreatLevel field (`llmService.ts`,
`validateResponse`): must be a boolean, otherwise false. -/
def increaseThreatLevelOf (v : JVal) : Bool :=
  match v with
  | .jbool b => b
  | _ => false

/-- JavaScript `list[0] || 'neutral'` over a list of emote identifiers
(`llmService.ts`: `validEmotes[0] || 'neutral'` and
`feissari.emotes[0]?.identifier || 'neutral'`). -/
def headOrNeutral (l : List String) : String :=
  match l.head? with
  | some s => if s = "" then "neutral" else s
  | none => "neutral"

/-- `LLMService.validateResponse` (`llmService.ts`).  The TypeScript method
throws for a missing/wrong-typed/empty message, a non-number balance, a
missing/wrong-typed/empty emote and a non-boolean goToNext (embedded as
`Except.error` with the thrown message), and mutates the remaining fields in
place: quickActions and increaseThreatLevel are defaulted when malformed,
the balance is clamped first to `0` from below and then to `currentBalance`
from above, and an emote identifier that is not one of the characters
defined identifiers is replaced by the first defined one (or `"neutral"`). -/
def validateResponse (r : RawLLMResponse) (feissari : Character)
    (currentBalance : Int) : Except String LLMResponse :=
  match r.message with
  | .jstr msg =>
    if msg = "" then
      .error "Invalid response: message is required and must be a non-empty string"
    else
      match r.balance with
      | .jnum bal =>
        match r.emote with
        | .jstr emote0 =>
          if emote0 = "" then
            .error "Invalid response: emote is required and must be a string"
          else
            match r.goToNext with
            | .jbool gn =>
              let quickActions := quickActionsOf r.quickActions
              let itl := increaseThreatLevelOf r.increaseThreatLevel
              let bal1 := if bal < 0 then 0 else bal
              let bal2 := if bal1 > currentBalance then currentBalance else bal1
              let validEmotes := feissari.emotes.map (·.identifier)
              let emote :=
                if validEmotes.contains emote0 then emote0
                else headOrNeutral validEmotes
              .ok ⟨msg, bal2, emote, gn, quickActions, itl⟩
            | _ => .error "Invalid response: goToNext must be a boolean"
        | _ => .error "Invalid response: emote is required and must be a string"
      | _ => .error "Invalid response: balance must be a number"
  | _ => .error "Invalid response: message is required and must be a non-empty string"

/-- The fallback reply produced in the catch branch of
`LLMService.getResponse` (`llmService.ts`). -/
def fallbackResponse (feissari : Character) (currentBalance : Int) : LLMResponse :=
  { message := "Something went wrong"
    balance := currentBalance
    emote := headOrNeutral (feissari.emotes.map (·.identifier))
    goToNext := true
    quickActions := defaultQuickActions
    increaseThreatLevel := false }

/-- `LLMService.getResponse` (`llmService.ts`): on a successful transport
and parse, validate the raw reply; any thrown error — transport, parse or
validation — is caught and replaced by the fallback reply.  The prompt
construction (`buildPrompt`) only feeds the external generation call, which
is the `OracleOutcome` input here, so it does not appear in the embedding.
The function is total: it never propagates an error to its caller. -/
def getResponse (feissari : Character) (currentBalance : Int)
    (outcome : OracleOutcome) : LLMResponse :=
  match outcome with
  | .failure => fallbackResponse feissari currentBalance
  | .reply r =>
      match validateResponse r feissari currentBalance with
      | .ok resp => resp
      | .error _ => fallbackResponse feissari currentBalance

/-- The fixed starting balance (`index.ts`, `INITIAL_BALANCE = 100`). -/
def INITIAL_BALANCE : Int := 100

/-- The fixed game duration budget in milliseconds
(`index.ts`, `GAME_DURATION_MS = 3 * 60 * 1000`). -/
def GAME_DURATION_MS : Int := 3 * 60 * 1000

/-- A game session document (`types.ts`, interface `Game`; the document id
is the key under which the state holds it, not a field). -/
structure Game where
  userId : String
  createdAt : Int
  currentFeissariId : String
  isActive : Bool
deriving DecidableEq

/-- One interaction record in the `chats` subcollection
(`types.ts`, interface `ChatHistory`).  `timestamp` is the server-assigned
monotone ordering key (`admin.firestore.FieldValue.serverTimestamp()`). -/
structure Chat where
  feissariId : String
  feissariName : String
  timestamp : Nat
  userMessage : Option String
  aiMessage : String
  balanceBefore : Int
  balanceAfter : Int
  emoteAssets : List String
  movedToNext : Bool
deriving DecidableEq

/-- One leaderboard document (`types.ts`, interface `LeaderboardEntry`). -/
structure LeaderboardEntry where
  userId : String
  userName : String
  gameId : String
  score : Int
  defeatedFeissari : Nat
  finalBalance : Int
deriving DecidableEq

/-- The backing state seen by the handlers: the two configuration handles
(`firestore` and `llmService` module variables of `index.ts`, `none`
embedded as a false flag), the game document addressed by the request, its
`chats` subcollection, the `feissarit` catalog collection, the `name` field
of the owner user document (`none` when the document is absent) and the
`leaderboard` collection. -/
structure ServerState where
  firestoreConfigured : Bool
  llmConfigured : Bool
  game : Option Game
  chats : List Chat
  feissarit : List Character
  userName : Option String
  leaderboard : List LeaderboardEntry
deriving DecidableEq

/-- The Firestore query `orderBy('timestamp', 'desc').limit(1)` over the
`chats` subcollection: the chat with the greatest server timestamp. -/
def latestChat : List Chat → Option Chat
  | [] => none
  | c :: cs => some (cs.foldl (fun acc d => if acc.timestamp < d.timestamp then d else acc) c)

/-- Server-assigned timestamp for a new chat document: strictly greater
than every timestamp already present, mirroring the monotone
`serverTimestamp()` ordering key. -/
def nextTimestamp (chats : List Chat) : Nat :=
  (chats.foldl (fun m c => max m c.timestamp) 0) + 1

/-- The current-balance read used by both handlers (`index.ts`):
`latestChatSnapshot.empty ? INITIAL_BALANCE :
latestChatSnapshot.docs[0].data().balanceAfter`. -/
def currentBalanceOf (chats : List Chat) : Int :=
  match latestChat chats with
  | none => INITIAL_BALANCE
  | some c => c.balanceAfter

/-- `calculateDefeatedFeissari` (`index.ts`): the number of distinct
`feissariId` values among chats with `movedToNext = true`. -/
def calculateDefeatedFeissari (chats : List Chat) : Nat :=
  (((chats.filter (·.movedToNext)).map (·.feissariId)).dedup).length

/-- `calculateGameScore` (`index.ts`): `score = defeatedFeissari *
finalBalance`, returned together with the defeated count. -/
def calculateGameScore (chats : List Chat) (finalBalance : Int) : Int × Nat :=
  let defeated := calculateDefeatedFeissari chats
  ((defeated : Int) * finalBalance, defeated)

/-- `userDoc.exists ? (userDoc.data()?.name || 'Anonymous') : 'Anonymous'`
(`index.ts`, all three leaderboard-writing blocks). -/
def resolveUserName (userName : Option String) : String :=
  match userName with
  | some n => if n = "" then "Anonymous" else n
  | none => "Anonymous"

/-- The leaderboard-writing block repeated in `index.ts`: query for an
existing entry with this `gameId`; only when none exists, insert a new
entry with the resolved user name. -/
def recordLeaderboardIfAbsent (s : ServerState) (gameId : String)
    (userId : String) (score : Int) (defeated : Nat) (finalBalance : Int) :
    ServerState :=
  if s.leaderboard.any (fun e => e.gameId = gameId) then s
  else
    { s with leaderboard := s.leaderboard ++
        [⟨userId, resolveUserName s.userName, gameId, score, defeated, finalBalance⟩] }

/-- Order used by the Firestore query
`orderBy(admin.firestore.FieldPath.documentId())`: document ids compared as
strings. -/
def charIdLe (a b : Character) : Prop := a.id ≤ b.id

instance : DecidableRel charIdLe := fun a b => (inferInstance : Decidable (a.id ≤ b.id))

instance : IsTotal Character charIdLe := ⟨fun a b => le_total a.id b.id⟩

instance : IsTrans Character charIdLe := ⟨fun _ _ _ => le_trans⟩

/-- The `feissarit` catalog in document-id order, as returned by
`orderBy(admin.firestore.FieldPath.documentId())`. -/
def sortedFeissarit (catalog : List Character) : List Character :=
  catalog.insertionSort charIdLe

/-- The next-character lookup of the `goToNext` branch (`index.ts`):
`orderBy(documentId()).startAfter(currentId).limit(1)` — the first catalog
entry, in id order, with id strictly greater than `currentId` — and, when
that query is empty, the wraparound `orderBy(documentId()).limit(1)` — the
first catalog entry in id order.  `none` only for an empty catalog. -/
def nextFeissariAfter (catalog : List Character) (currentId : String) :
    Option Character :=
  match (sortedFeissarit catalog).find? (fun f => currentId < f.id) with
  | some f => some f
  | none => (sortedFeissarit catalog).head?

/-- The response body of `PUT /api/game/:gameId`
(`types.ts`, interface `UpdateGameResponse`; `score` is optional there and
`defeatedFeissari` is set by every 200 response the handler builds). -/
structure UpdateGameResponse where
  message : String
  balance : Int
  emoteAssets : List String
  goToNext : Bool
  gameOver : Bool
  feissariName : String
  score : Option Int
  defeatedFeissari : Nat
deriving DecidableEq

/-- The possible HTTP-level outcomes of `PUT /api/game/:gameId`. -/
inductive TurnResult where
  | badRequest (err : String)
  | serviceUnavailable (err : String)
  | notFound
  | gone
  | internalError (err : String)
  | ok (resp : UpdateGameResponse)
deriving DecidableEq

/-- The HTTP status code of each turn outcome (`res.status(...)`). -/
def TurnResult.status : TurnResult → Nat
  | .badRequest _ => 400
  | .serviceUnavailable _ => 503
  | .notFound => 404
  | .gone => 410
  | .internalError _ => 500
  | .ok _ => 200

/-- Result of one `advanceTurn` call: the post-call backing state, the
HTTP-level result, and whether the external generation service was
invoked during the call. -/
structure TurnOutcome where
  state : ServerState
  result : TurnResult
  oracleCalled : Bool
deriving DecidableEq

/-- Tail of the main turn path of `PUT /api/game/:gameId` (`index.ts`,
after the chat append and the possible character transition): decide
`gameOver`, recompute the defeated count, compute the score — using the
pre-call balance when the balance was depleted by this very turn — set the
game inactive and record the leaderboard entry when the game is over, and
build the 200 response, which still reports the pre-transition character.
`s2.game` already carries the possibly-advanced `currentFeissariId`. -/
def finishTurn (s2 : ServerState) (gameId : String) (game : Game)
    (feissari : Character) (llmResponse : LLMResponse)
    (emoteAssets : List String) (currentBalance : Int) (timeExpired : Bool) :
    TurnOutcome :=
  let balanceDepletedNow := llmResponse.balance ≤ 0
  let gameOver := balanceDepletedNow || timeExpired
  let defeatedFeissari := calculateDefeatedFeissari s2.chats
  let score : Option Int :=
    if gameOver then
      if balanceDepletedNow then some ((defeatedFeissari : Int) * currentBalance)
      else some ((defeatedFeissari : Int) * llmResponse.balance)
    else none
  let s3 :=
    if gameOver then
      let sInactive := { s2 with game := s2.game.map (fun g => { g with isActive := false }) }
      recordLeaderboardIfAbsent sInactive gameId game.userId (score.getD 0)
        defeatedFeissari llmResponse.balance
    else s2
  ⟨s3,
   .ok ⟨llmResponse.message, llmResponse.balance, emoteAssets,
        llmResponse.goToNext, gameOver, feissari.name, score, defeatedFeissari⟩,
   true⟩

/-- The handler of `PUT /api/game/:gameId` (`index.ts`), embedded step for
step: input validation, configuration checks, game lookup, the `isActive`
guard, the time-expiry early return, the balance-depletion early return,
the character lookup, the null-message validation, the Oracle call, the
chat append, the character transition and the `finishTurn` tail.  `now` is
`Date.now()`; `oracle` is the outcome of the external generation call. -/
def advanceTurn (s : ServerState) (gameId : String) (message : Option String)
    (now : Int) (oracle : OracleOutcome) : TurnOutcome :=
  if jsTrim gameId = "" then
    ⟨s, .badRequest "Invalid gameId: gameId is required", false⟩
  else if !s.firestoreConfigured then
    ⟨s, .serviceUnavailable "Firebase not configured", false⟩
  else if !s.llmConfigured then
    ⟨s, .serviceUnavailable "LLM not configured", false⟩
  else
    match s.game with
    | none => ⟨s, .notFound, false⟩
    | some game =>
      if !game.isActive then ⟨s, .gone, false⟩
      else
        let elapsedTime := now - game.createdAt
        let timeExpired := elapsedTime > GAME_DURATION_MS
        if timeExpired then
          let s1 := { s with game := some { game with isActive := false } }
          let finalBalance := currentBalanceOf s1.chats
          let scored := calculateGameScore s1.chats finalBalance
          let s2 := recordLeaderboardIfAbsent s1 gameId game.userId scored.1
            scored.2 finalBalance
          ⟨s2,
           .ok ⟨"Aika loppui! Peli päättyi.", finalBalance, [], false, true, "",
                some scored.1, scored.2⟩,
           false⟩
        else
          let currentBalance := currentBalanceOf s.chats
          if currentBalance ≤ 0 then
            let s1 := { s with game := some { game with isActive := false } }
            let scored := calculateGameScore s1.chats 0
            let s2 := recordLeaderboardIfAbsent s1 gameId game.userId scored.1
              scored.2 0
            ⟨s2,
             .ok ⟨"Rahasi loppuivat! Peli päättyi.", 0, [], false, true, "",
                  some scored.1, scored.2⟩,
             false⟩
          else
            match s.feissarit.find? (fun f => f.id = game.currentFeissariId) with
            | none => ⟨s, .internalError "Current feissari not found", false⟩
            | some feissari =>
              let nullInvalid :=
                message.isNone &&
                  (match latestChat s.chats with
                   | some last => !last.movedToNext
                   | none => false)
              if nullInvalid then
                ⟨s, .badRequest "Invalid request: null message can only be sent after a feissari has been defeated", false⟩
              else
                let llmResponse := getResponse feissari currentBalance oracle
                let emoteAssets :=
                  match feissari.emotes.find? (fun e => e.identifier = llmResponse.emote) with
                  | some e => e.assets
                  | none => []
                let chat : Chat :=
                  ⟨game.currentFeissariId, feissari.name, nextTimestamp s.chats,
                   message, llmResponse.message, currentBalance,
                   llmResponse.balance, emoteAssets, llmResponse.goToNext⟩
                let s1 := { s with chats := s.chats ++ [chat] }
                if llmResponse.goToNext then
                  match nextFeissariAfter s1.feissarit game.currentFeissariId with
                  | none => ⟨s1, .internalError "Failed to update game", true⟩
                  | some nf =>
                    let s2 :=
                      { s1 with game := some { game with currentFeissariId := nf.id } }
                    finishTurn s2 gameId game feissari llmResponse emoteAssets
                      currentBalance timeExpired
                else
                  finishTurn s1 gameId game feissari llmResponse emoteAssets
                    currentBalance timeExpired

/-- The response body of `POST /api/game`
(`types.ts`, interface `CreateGameResponse`). -/
structure CreateGameResponse where
  gameId : String
  createdAt : Int
  initialBalance : Int
deriving DecidableEq

/-- The possible HTTP-level outcomes of `POST /api/game`. -/
inductive CreateResult where
  | badRequest (err : String)
  | serviceUnavailable (err : String)
  | internalError (err : String)
  | created (resp : CreateGameResponse)
deriving DecidableEq

/-- The HTTP status code of each creation outcome (`res.status(...)`). -/
def CreateResult.status : CreateResult → Nat
  | .badRequest _ => 400
  | .serviceUnavailable _ => 503
  | .internalError _ => 500
  | .created _ => 201

/-- The handler of `POST /api/game` (`index.ts`): validate `userId`, check
the store handle, load the `feissarit` catalog — replying with status 500
`No feissarit available` when it is empty — pick a uniformly random
character (the random draw enters as `pick`, reduced modulo the catalog
size exactly as `Math.floor(Math.random() * feissarit.length)` ranges over
`0 .. length-1`), and write the new game document with `isActive = true`.
`newGameId` is the auto-generated document id and `now` the server time. -/
def createGame (s : ServerState) (userId : String) (pick : Nat)
    (newGameId : String) (now : Int) : ServerState × CreateResult :=
  if jsTrim userId = "" then
    (s, .badRequest "Invalid userId: userId is required and must be a non-empty string")
  else if !s.firestoreConfigured then
    (s, .serviceUnavailable "Firebase not configured")
  else
    match s.feissarit with
    | [] => (s, .internalError "No feissarit available")
    | f :: fs =>
      let all := f :: fs
      let chosen := all.get ⟨pick % all.length, Nat.mod_lt _ (Nat.succ_pos _)⟩
      let gameData : Game := ⟨jsTrim userId, now, chosen.id, true⟩
      ({ s with game := some gameData }, .created ⟨newGameId, now, INITIAL_BALANCE⟩)

/-- One input to an `advanceTurn` call: the request message, the server
clock reading and the outcome the external generation service would give
if consulted. -/
structure TurnInput where
  message : Option String
  now : Int
  oracle : OracleOutcome

/-- A sequence of `advanceTurn` calls against one game, threading the
backing state; returns the final state together with the per-call results
and oracle-invocation flags. -/
def runTurns (s : ServerState) (gameId : String) :
    List TurnInput → ServerState × List (TurnResult × Bool)
  | [] => (s, [])
  | i :: is =>
    let o := advanceTurn s gameId i.message i.now i.oracle
    let rest := runTurns o.state gameId is
    (rest.1, (o.result, o.oracleCalled) :: rest.2)

/-- `typeof v === 'string' && v` truthiness: a non-empty string. -/
def JVal.isNonemptyStr : JVal → Bool
  | .jstr s => !(s = "")
  | _ => false

/-- `typeof v === 'number'`. -/
def JVal.isNum : JVal → Bool
  | .jnum _ => true
  | _ => false

/-- `typeof v === 'boolean'`. -/
def JVal.isBool : JVal → Bool
  | .jbool _ => true
  | _ => false

/-- Whether reply validation succeeded (the method returned normally
rather than throwing). -/
def validationOk (v : Except String LLMResponse) : Bool :=
  match v with
  | .ok _ => true
  | .error _ => false

/-- Whether a turn outcome is the 400 `BadRequest` rejection. -/
def TurnResult.isBadRequest : TurnResult → Bool
  | .badRequest _ => true
  | _ => false

/-- Concrete fixture: an emote. -/
def happyEmote : Emote := ⟨"happy", "use when happy", ["happy.svg"]⟩

/-- Concrete fixture: a one-emote character with id `a`. -/
def aaro : Character := ⟨"a", "Aaro", "sell hard", [happyEmote]⟩

/-- Concrete fixture: a resolved interaction that left the balance at 50. -/
def resolvedChat : Chat := ⟨"a", "Aaro", 1, none, "hei", 100, 50, [], true⟩

/-- Concrete fixture: the game document of the fixture session. -/
def baseGame : Game := ⟨"u1", 0, "a", true⟩

/-- Concrete fixture: a configured backing state with an active session,
one resolved interaction (current balance 50) and a one-character
catalog. -/
def baseState : ServerState :=
  ⟨true, true, some ⟨"u1", 0, "a", true⟩, [resolvedChat], [aaro], some "Matti", []⟩

/-- Concrete fixture: a well-typed raw reply proposing a balance raise from
50 to 80. -/
def raw80 : RawLLMResponse :=
  ⟨.jstr "buy", .jnum 80, .jstr "happy", .jbool false,
   .jarr [.jstr "Tell", .jstr "No", .jstr "Buy"], .jbool false⟩

/-- Concrete fixture: a well-typed raw reply that deducts the whole
balance. -/
def raw0 : RawLLMResponse :=
  ⟨.jstr "bye", .jnum 0, .jstr "happy", .jbool false,
   .jarr [.jstr "Tell", .jstr "No", .jstr "Buy"], .jbool false⟩

/-- Concrete fixture: a raw reply whose balance field is a string — every
field other than balance is well-typed. -/
def rawBadBalance : RawLLMResponse :=
  ⟨.jstr "buy", .jstr "50", .jstr "happy", .jbool false,
   .jarr [.jstr "Tell", .jstr "No", .jstr "Buy"], .jbool false⟩

/-- Concrete fixture: the fixture session after its game ended. -/
def inactiveState : ServerState :=
  ⟨true, true, some ⟨"u1", 0, "a", false⟩, [resolvedChat], [aaro], some "Matti", []⟩

/-- Concrete fixture: the validated form of `raw80` against current
balance 50 — the proposed 80 is clamped to 50. -/
def respC1 : LLMResponse := ⟨"buy", 50, "happy", false, ["Tell", "No", "Buy"], false⟩

/-- Concrete fixture: `raw80` with the encounter-resolved flag set. -/
def raw80go : RawLLMResponse :=
  ⟨.jstr "buy", .jnum 80, .jstr "happy", .jbool true,
   .jarr [.jstr "Tell", .jstr "No", .jstr "Buy"], .jbool false⟩

theorem recordLeaderboardIfAbsent_chats (s : ServerState) (gameId userId : String)
    (score : Int) (defeated : Nat) (fb : Int) :
    (recordLeaderboardIfAbsent s gameId userId score defeated fb).chats = s.chats := by
  unfold recordLeaderboardIfAbsent
  split <;> rfl

theorem recordLeaderboardIfAbsent_game (s : ServerState) (gameId userId : String)
    (score : Int) (defeated : Nat) (fb : Int) :
    (recordLeaderboardIfAbsent s gameId userId score defeated fb).game = s.game := by
  unfold recordLeaderboardIfAbsent
  split <;> rfl

theorem finishTurn_state_chats (s2 : ServerState) (gameId : String) (game : Game)
    (feissari : Character) (llm : LLMResponse) (ea : List String)
    (cb : Int) (te : Bool) :
    (finishTurn s2 gameId game feissari llm ea cb te).state.chats = s2.chats := by
  unfold finishTurn
  dsimp only
  split
  · rw [recordLeaderboardIfAbsent_chats]
  · rfl

theorem recordLeaderboardIfAbsent_feissarit (s : ServerState) (gameId userId : String)
    (score : Int) (defeated : Nat) (fb : Int) :
    (recordLeaderboardIfAbsent s gameId userId score defeated fb).feissarit = s.feissarit := by
  unfold recordLeaderboardIfAbsent
  split <;> rfl

theorem finishTurn_state_game (s2 : ServerState) (gameId : String) (game : Game)
    (feissari : Character) (llm : LLMResponse) (ea : List String)
    (cb : Int) (te : Bool) :
    (finishTurn s2 gameId game feissari llm ea cb te).state.game = s2.game ∨
    (finishTurn s2 gameId game feissari llm ea cb te).state.game =
      s2.game.map (fun g => { g with isActive := false }) := by
  unfold finishTurn
  dsimp only
  split
  · right
    rw [recordLeaderboardIfAbsent_game]
  · left
    rfl

theorem finishTurn_result_eq (s2 : ServerState) (gameId : String) (game : Game)
    (feissari : Character) (llm : LLMResponse) (ea : List String)
    (cb : Int) (te : Bool) :
    (finishTurn s2 gameId game feissari llm ea cb te).result =
      .ok ⟨llm.message, llm.balance, ea, llm.goToNext,
           (decide (llm.balance ≤ 0) || te), feissari.name,
           (if (decide (llm.balance ≤ 0) || te) = true then
              if llm.balance ≤ 0 then
                some ((calculateDefeatedFeissari s2.chats : Int) * cb)
              else some ((calculateDefeatedFeissari s2.chats : Int) * llm.balance)
            else none),
           calculateDefeatedFeissari s2.chats⟩ := rfl

theorem finishTurn_state_leaderboard_depleted (s2 : ServerState) (gameId : String)
    (game : Game) (feissari : Character) (llm : LLMResponse) (ea : List String)
    (cb : Int) (te : Bool)
    (hdep : llm.balance ≤ 0)
    (habsent : s2.leaderboard.any (fun e => e.gameId = gameId) = false) :
    (finishTurn s2 gameId game feissari llm ea cb te).state.leaderboard =
      s2.leaderboard ++
        [⟨game.userId, resolveUserName s2.userName, gameId,
          (calculateDefeatedFeissari s2.chats : Int) * cb,
          calculateDefeatedFeissari s2.chats, llm.balance⟩] := by
  simp [finishTurn, recordLeaderboardIfAbsent, hdep, habsent]

theorem validateResponse_ok_inv (r : RawLLMResponse) (f : Character) (cb : Int)
    (resp : LLMResponse) (hok : validateResponse r f cb = .ok resp) :
    ∃ msg bal emote0 gn,
      r.message = .jstr msg ∧ r.balance = .jnum bal ∧ r.emote = .jstr emote0 ∧
      r.goToNext = .jbool gn ∧ ¬ msg = "" ∧ ¬ emote0 = "" ∧
      resp = ⟨msg,
        if (if bal < 0 then 0 else bal) > cb then cb else if bal < 0 then 0 else bal,
        if (f.emotes.map (·.identifier)).contains emote0 then emote0
          else headOrNeutral (f.emotes.map (·.identifier)),
        gn, quickActionsOf r.quickActions, increaseThreatLevelOf r.increaseThreatLevel⟩ := by
  obtain ⟨m, b, e, g, q, t⟩ := r
  cases m with
  | undef => simp [validateResponse] at hok
  | jnull => simp [validateResponse] at hok
  | jbool x => simp [validateResponse] at hok
  | jnum x => simp [validateResponse] at hok
  | jarr x => simp [validateResponse] at hok
  | jstr msg =>
    simp only [validateResponse] at hok
    by_cases hmsg : msg = ""
    · rw [if_pos hmsg] at hok
      exact absurd hok (by simp)
    rw [if_neg hmsg] at hok
    cases b with
    | undef => simp at hok
    | jnull => simp at hok
    | jbool x => simp at hok
    | jstr x => simp at hok
    | jarr x => simp at hok
    | jnum bal =>
      try dsimp only at hok
      cases e with
      | undef => simp at hok
      | jnull => simp at hok
      | jbool x => simp at hok
      | jnum x => simp at hok
      | jarr x => simp at hok
      | jstr emote0 =>
        try dsimp only at hok
        by_cases hemote : emote0 = ""
        · rw [if_pos hemote] at hok
          exact absurd hok (by simp)
        rw [if_neg hemote] at hok
        try dsimp only at hok
        cases g with
        | undef => simp at hok
        | jnull => simp at hok
        | jnum x => simp at hok
        | jstr x => simp at hok
        | jarr x => simp at hok
        | jbool gn =>
          refine ⟨msg, bal, emote0, gn, rfl, rfl, rfl, rfl, hmsg, hemote, ?_⟩
          simp only [Except.ok.injEq] at hok
          exact hok.symm

theorem validateResponse_ok_balance_bounds (r : RawLLMResponse) (f : Character)
    (cb : Int) (resp : LLMResponse)
    (hok : validateResponse r f cb = .ok resp) (hcb : 0 ≤ cb) :
    0 ≤ resp.balance ∧ resp.balance ≤ cb := by
  obtain ⟨msg, bal, emote0, gn, _, _, _, _, _, _, rfl⟩ :=
    validateResponse_ok_inv r f cb resp hok
  dsimp only
  split_ifs <;> omega

theorem getResponse_balance_bounds (f : Character) (cb : Int) (o : OracleOutcome)
    (hcb : 0 ≤ cb) :
    0 ≤ (getResponse f cb o).balance ∧ (getResponse f cb o).balance ≤ cb := by
  cases o with
  | failure => exact ⟨hcb, le_refl cb⟩
  | reply r =>
    cases hv : validateResponse r f cb with
    | ok resp =>
      simpa [getResponse, hv] using validateResponse_ok_balance_bounds r f cb resp hv hcb
    | error e =>
      simp only [getResponse, hv]
      exact ⟨hcb, le_refl cb⟩

theorem sorted_find?_min {l : List Character} (hs : List.Sorted charIdLe l)
    (p : Character → Bool) (x : Character) (hf : l.find? p = some x) :
    ∀ y ∈ l, p y = true → x.id ≤ y.id := by
  induction l with
  | nil => simp at hf
  | cons a t ih =>
    rw [List.sorted_cons] at hs
    by_cases hpa : p a = true
    · rw [List.find?_cons_of_pos _ hpa] at hf
      injection hf with hxa
      subst hxa
      intro y hy _
      rcases List.mem_cons.mp hy with rfl | hyt
      · exact le_refl _
      · exact hs.1 y hyt
    · rw [List.find?_cons_of_neg _ (by simpa using hpa)] at hf
      intro y hy hpy
      rcases List.mem_cons.mp hy with rfl | hyt
      · exact absurd hpy hpa
      · exact ih hs.2 hf y hyt hpy

theorem nextFeissariAfter_isSome (catalog : List Character) (cur : String)
    (hne : catalog ≠ []) : ∃ nf, nextFeissariAfter catalog cur = some nf := by
  unfold nextFeissariAfter
  cases hf : (sortedFeissarit catalog).find? (fun f => cur < f.id) with
  | some f => exact ⟨f, rfl⟩
  | none =>
    cases hl : sortedFeissarit catalog with
    | cons a t => exact ⟨a, rfl⟩
    | nil =>
      have hperm := List.perm_insertionSort charIdLe catalog
      rw [sortedFeissarit] at hl
      rw [hl] at hperm
      exact absurd (List.perm_nil.mp hperm.symm) hne

theorem nextFeissariAfter_spec (catalog : List Character) (cur : String)
    (nf : Character) (h : nextFeissariAfter catalog cur = some nf) :
    nf ∈ catalog ∧
    ((∃ g ∈ catalog, cur < g.id) →
      cur < nf.id ∧ ∀ g ∈ catalog, cur < g.id → nf.id ≤ g.id) ∧
    ((∀ g ∈ catalog, ¬ cur < g.id) → ∀ g ∈ catalog, nf.id ≤ g.id) := by
  have hperm : (sortedFeissarit catalog).Perm catalog :=
    List.perm_insertionSort charIdLe catalog
  have hsort : List.Sorted charIdLe (sortedFeissarit catalog) :=
    List.sorted_insertionSort charIdLe catalog
  unfold nextFeissariAfter at h
  cases hf : (sortedFeissarit catalog).find? (fun f => cur < f.id) with
  | some f =>
    rw [hf] at h
    injection h with hfnf
    subst hfnf
    have hmemSorted : f ∈ sortedFeissarit catalog := List.mem_of_find?_eq_some hf
    have hmem : f ∈ catalog := hperm.subset hmemSorted
    have hlt : cur < f.id := by simpa using List.find?_some hf
    refine ⟨hmem, fun _ => ⟨hlt, fun g hg hglt => ?_⟩, fun hall g hg => ?_⟩
    · exact sorted_find?_min hsort _ f hf g (hperm.mem_iff.mpr hg) (by simpa using hglt)
    · exact absurd hlt (hall f hmem)
  | none =>
    rw [hf] at h
    cases hl : sortedFeissarit catalog with
    | nil => rw [hl] at h; simp at h
    | cons a t =>
      rw [hl] at h
      injection h with hanf
      have hmem : nf ∈ catalog := by
        refine hperm.subset ?_
        rw [hl, ← hanf]
        exact List.mem_cons_self a t
      have hnone : ∀ y ∈ sortedFeissarit catalog, ¬ cur < y.id := by
        intro y hy
        have := List.find?_eq_none.mp hf y hy
        simpa using this
      refine ⟨hmem, fun hex => ?_, fun _ g hg => ?_⟩
      · obtain ⟨g, hg, hglt⟩ := hex
        exact absurd hglt (hnone g (hperm.mem_iff.mpr hg))
      · have hgs : g ∈ sortedFeissarit catalog := hperm.mem_iff.mpr hg
        rw [hl] at hgs
        rcases List.mem_cons.mp hgs with rfl | hgt
        · rw [← hanf]
        · rw [← hanf]
          exact (List.sorted_cons.mp (hl ▸ hsort)).1 g hgt

theorem advanceTurn_proceed (s : ServerState) (gameId : String)
    (message : Option String) (now : Int) (oracle : OracleOutcome)
    (game : Game) (feissari : Character)
    (hid : ¬ jsTrim gameId = "")
    (hfs : s.firestoreConfigured = true) (hllm : s.llmConfigured = true)
    (hg : s.game = some game) (hact : game.isActive = true)
    (hexp : ¬ now - game.createdAt > GAME_DURATION_MS)
    (hbal : 0 < currentBalanceOf s.chats)
    (hfind : s.feissarit.find? (fun f => f.id = game.currentFeissariId) = some feissari)
    (hnull : (message.isNone && (match latestChat s.chats with
        | some last => !last.movedToNext
        | none => false)) = false) :
    advanceTurn s gameId message now oracle =
      (let currentBalance := currentBalanceOf s.chats
       let llmResponse := getResponse feissari currentBalance oracle
       let emoteAssets :=
         match feissari.emotes.find? (fun e => e.identifier = llmResponse.emote) with
         | some e => e.assets
         | none => []
       let chat : Chat :=
         ⟨game.currentFeissariId, feissari.name, nextTimestamp s.chats, message,
          llmResponse.message, currentBalance, llmResponse.balance, emoteAssets,
          llmResponse.goToNext⟩
       let s1 := { s with chats := s.chats ++ [chat] }
       if llmResponse.goToNext then
         match nextFeissariAfter s1.feissarit game.currentFeissariId with
         | none => ⟨s1, .internalError "Failed to update game", true⟩
         | some nf =>
           finishTurn { s1 with game := some { game with currentFeissariId := nf.id } }
             gameId game feissari llmResponse emoteAssets currentBalance
             (decide (now - game.createdAt > GAME_DURATION_MS))
       else
         finishTurn s1 gameId game feissari llmResponse emoteAssets currentBalance
           (decide (now - game.createdAt > GAME_DURATION_MS))) := by
  have hbal' : ¬ currentBalanceOf s.chats ≤ 0 := not_le.mpr hbal
  simp only [advanceTurn, if_neg hid, hfs, hllm, hg, hact, if_neg hexp,
    if_neg hbal', hfind, hnull, Bool.not_true, Bool.false_eq_true, if_false]

/-- Claim C5: for every input, any transport, parse, or validation failure
inside the Oracle adapters getResponse yields the fallback reply — a
generic failure message, balance equal to the current balance (unchanged),
the first expression identifier of the character or the generic `neutral`
fallback, encounterResolved (goToNext) = true, the fixed default
quick-action triple, and escalate (increaseThreatLevel) = false.
getResponse is a total function into LLMResponse, so it never raises an
exception to its caller. -/
theorem c5_failure_fallback (f : Character) (cb : Int) (o : OracleOutcome)
    (h : o = .failure ∨ ∃ r e, o = .reply r ∧ validateResponse r f cb = .error e) :
    getResponse f cb o = fallbackResponse f cb ∧
    (getResponse f cb o).message = "Something went wrong" ∧
    (getResponse f cb o).balance = cb ∧
    (getResponse f cb o).emote = headOrNeutral (f.emotes.map (·.identifier)) ∧
    (getResponse f cb o).goToNext = true ∧
    (getResponse f cb o).quickActions = defaultQuickActions ∧
    (getResponse f cb o).increaseThreatLevel = false := by
  have hg : getResponse f cb o = fallbackResponse f cb := by
    rcases h with rfl | ⟨r, e, rfl, hv⟩
    · rfl
    · simp [getResponse, hv]
  exact ⟨hg, by rw [hg]; rfl, by rw [hg]; rfl, by rw [hg]; rfl, by rw [hg]; rfl,
    by rw [hg]; rfl, by rw [hg]; rfl⟩

/-- Witness for claim C5, at a concrete transport failure. -/
theorem c5_failure_fallback_witness :
    ((OracleOutcome.failure = OracleOutcome.failure ∨
       ∃ r e, OracleOutcome.failure = OracleOutcome.reply r ∧
         validateResponse r aaro 50 = .error e) ∧
     (getResponse aaro 50 .failure = fallbackResponse aaro 50 ∧
      (getResponse aaro 50 .failure).message = "Something went wrong" ∧
      (getResponse aaro 50 .failure).balance = 50 ∧
      (getResponse aaro 50 .failure).emote = headOrNeutral (aaro.emotes.map (·.identifier)) ∧
      (getResponse aaro 50 .failure).goToNext = true ∧
      (getResponse aaro 50 .failure).quickActions = defaultQuickActions ∧
      (getResponse aaro 50 .failure).increaseThreatLevel = false)) :=
  ⟨Or.inl rfl, c5_failure_fallback aaro 50 .failure (Or.inl rfl)⟩

/-- Claim C4 counterexample: the raw reply `rawBadBalance` has a well-typed
non-empty message but a string-typed balance field.  The claim says a
wrong-typed balance is corrected in place and the reply is never rejected
for it, but validation hard-fails on this reply and the adapter discards it
for the fallback reply. -/
theorem c4_counterexample :
    validateResponse rawBadBalance aaro 50 =
      .error "Invalid response: balance must be a number" ∧
    validationOk (validateResponse rawBadBalance aaro 50) = false ∧
    getResponse aaro 50 (.reply rawBadBalance) = fallbackResponse aaro 50 :=
  ⟨rfl, rfl, rfl⟩

/-- Claim C4 (amended): reply validation hard-fails exactly when the reply
message, the balance, the expression identifier, or the encounter-resolved
flag is missing or wrong-typed (message and expression identifier also when
empty); only the remaining violations — out-of-range balance, unknown
string expression identifier, malformed quick-action list, non-boolean
escalate flag — are corrected in place, with the corrected reply
returned. -/
theorem c4_hard_failure_iff (r : RawLLMResponse) (f : Character) (cb : Int) :
    validationOk (validateResponse r f cb) =
      (r.message.isNonemptyStr && r.balance.isNum &&
       r.emote.isNonemptyStr && r.goToNext.isBool) := by
  obtain ⟨m, b, e, g, q, t⟩ := r
  cases m with
  | undef => simp [validateResponse, validationOk, JVal.isNonemptyStr]
  | jnull => simp [validateResponse, validationOk, JVal.isNonemptyStr]
  | jbool x => simp [validateResponse, validationOk, JVal.isNonemptyStr]
  | jnum x => simp [validateResponse, validationOk, JVal.isNonemptyStr]
  | jarr x => simp [validateResponse, validationOk, JVal.isNonemptyStr]
  | jstr msg =>
    by_cases hmsg : msg = ""
    · simp [validateResponse, validationOk, hmsg, JVal.isNonemptyStr]
    · cases b with
      | undef => simp [validateResponse, validationOk, hmsg, JVal.isNonemptyStr, JVal.isNum]
      | jnull => simp [validateResponse, validationOk, hmsg, JVal.isNonemptyStr, JVal.isNum]
      | jbool x => simp [validateResponse, validationOk, hmsg, JVal.isNonemptyStr, JVal.isNum]
      | jstr x => simp [validateResponse, validationOk, hmsg, JVal.isNonemptyStr, JVal.isNum]
      | jarr x => simp [validateResponse, validationOk, hmsg, JVal.isNonemptyStr, JVal.isNum]
      | jnum bal =>
        cases e with
        | undef =>
          simp [validateResponse, validationOk, hmsg, JVal.isNonemptyStr, JVal.isNum]
        | jnull =>
          simp [validateResponse, validationOk, hmsg, JVal.isNonemptyStr, JVal.isNum]
        | jbool x =>
          simp [validateResponse, validationOk, hmsg, JVal.isNonemptyStr, JVal.isNum]
        | jnum x =>
          simp [validateResponse, validationOk, hmsg, JVal.isNonemptyStr, JVal.isNum]
        | jarr x =>
          simp [validateResponse, validationOk, hmsg, JVal.isNonemptyStr, JVal.isNum]
        | jstr emote0 =>
          by_cases hemote : emote0 = ""
          · simp [validateResponse, validationOk, hmsg, hemote, JVal.isNonemptyStr,
              JVal.isNum]
          · cases g with
            | undef =>
              simp [validateResponse, validationOk, hmsg, hemote, JVal.isNonemptyStr,
                JVal.isNum, JVal.isBool]
            | jnull =>
              simp [validateResponse, validationOk, hmsg, hemote, JVal.isNonemptyStr,
                JVal.isNum, JVal.isBool]
            | jnum x =>
              simp [validateResponse, validationOk, hmsg, hemote, JVal.isNonemptyStr,
                JVal.isNum, JVal.isBool]
            | jstr x =>
              simp [validateResponse, validationOk, hmsg, hemote, JVal.isNonemptyStr,
                JVal.isNum, JVal.isBool]
            | jarr x =>
              simp [validateResponse, validationOk, hmsg, hemote, JVal.isNonemptyStr,
                JVal.isNum, JVal.isBool]
            | jbool gn =>
              simp [validateResponse, validationOk, hmsg, hemote, JVal.isNonemptyStr,
                JVal.isNum, JVal.isBool]

/-- Claim C9 counterexample: with a configured store, a well-formed
non-empty owner id and an empty character catalog, createGame replies with
HTTP status 500 (InternalError, `No feissarit available`) — not the 503
ServiceUnavailable the claim states — and writes no game document. -/
theorem c9_counterexample :
    (createGame ⟨true, true, none, [], [], none, []⟩ "user" 0 "g" 0).2.status = 500 ∧
    ¬ (createGame ⟨true, true, none, [], [], none, []⟩ "user" 0 "g" 0).2.status = 503 ∧
    (createGame ⟨true, true, none, [], [], none, []⟩ "user" 0 "g" 0).1 =
      ⟨true, true, none, [], [], none, []⟩ :=
  ⟨rfl, by decide, rfl⟩

/-- Claim C9 (amended): createGame, given a well-formed non-empty ownerId
and a configured store, fails with InternalError (HTTP 500,
`No feissarit available`) when no characters are registered in the
catalog, and in that case writes no Session document. -/
theorem c9_no_characters (s : ServerState) (userId : String) (pick : Nat)
    (gid : String) (now : Int)
    (hu : ¬ jsTrim userId = "") (hfs : s.firestoreConfigured = true)
    (hcat : s.feissarit = []) :
    (createGame s userId pick gid now).2 = .internalError "No feissarit available" ∧
    (createGame s userId pick gid now).2.status = 500 ∧
    (createGame s userId pick gid now).1 = s := by
  have h : createGame s userId pick gid now = (s, .internalError "No feissarit available") := by
    obtain ⟨fsc, llmc, game, chats, feissarit, userName, lb⟩ := s
    simp only at hfs hcat
    subst hfs hcat
    simp [createGame, if_neg hu]
  rw [h]
  exact ⟨rfl, rfl, rfl⟩

/-- Witness for claim C9 (amended), at the concrete empty-catalog state. -/
theorem c9_no_characters_witness :
    ((¬ (jsTrim "user" = "") ∧
      (⟨true, true, none, [], [], none, []⟩ : ServerState).firestoreConfigured = true ∧
      (⟨true, true, none, [], [], none, []⟩ : ServerState).feissarit = []) ∧
     ((createGame ⟨true, true, none, [], [], none, []⟩ "user" 0 "g" 0).2 =
        .internalError "No feissarit available" ∧
      (createGame ⟨true, true, none, [], [], none, []⟩ "user" 0 "g" 0).2.status = 500 ∧
      (createGame ⟨true, true, none, [], [], none, []⟩ "user" 0 "g" 0).1 =
        ⟨true, true, none, [], [], none, []⟩)) :=
  ⟨⟨by decide, rfl, rfl⟩, c9_no_characters _ "user" 0 "g" 0 (by decide) rfl rfl⟩

/-- Claim C8: for every session and every sequence of advanceTurn calls,
once the active flag of the game is false, every subsequent call (on a
configured server with a well-formed game id) fails with Gone before any
further processing — the backing state is left unchanged, so active is
never set back to true, and the Oracle is never invoked. -/
theorem c8_gone_forever (s : ServerState) (gameId : String) (game : Game)
    (inputs : List TurnInput)
    (hid : ¬ jsTrim gameId = "")
    (hfs : s.firestoreConfigured = true) (hllm : s.llmConfigured = true)
    (hg : s.game = some game) (hinact : game.isActive = false) :
    (runTurns s gameId inputs).1 = s ∧
    ∀ p ∈ (runTurns s gameId inputs).2, p = (TurnResult.gone, false) := by
  have hstep : ∀ m n o, advanceTurn s gameId m n o = ⟨s, .gone, false⟩ := by
    intro m n o
    simp [advanceTurn, if_neg hid, hfs, hllm, hg, hinact]
  induction inputs with
  | nil => exact ⟨rfl, by simp [runTurns]⟩
  | cons i is ih =>
    constructor
    · simp only [runTurns, hstep]
      exact ih.1
    · simp only [runTurns, hstep]
      intro p hp
      rcases List.mem_cons.mp hp with rfl | hp2
      · rfl
      · exact ih.2 p hp2

/-- Witness for claim C8: two calls against an ended session both return
Gone and leave the state untouched. -/
theorem c8_gone_forever_witness :
    ((¬ jsTrim "g1" = "" ∧ inactiveState.firestoreConfigured = true ∧
      inactiveState.llmConfigured = true ∧
      inactiveState.game = some ⟨"u1", 0, "a", false⟩ ∧
      (Game.mk "u1" 0 "a" false).isActive = false) ∧
     ((runTurns inactiveState "g1"
         [⟨none, 0, .failure⟩, ⟨some "hello", 5, .failure⟩]).1 = inactiveState ∧
      ∀ p ∈ (runTurns inactiveState "g1"
         [⟨none, 0, .failure⟩, ⟨some "hello", 5, .failure⟩]).2,
        p = (TurnResult.gone, false))) :=
  ⟨⟨by decide, rfl, rfl, rfl, rfl⟩,
   c8_gone_forever inactiveState "g1" ⟨"u1", 0, "a", false⟩ _
     (by decide) rfl rfl rfl rfl⟩

/-- Claim C2: every advanceTurn call on an active session whose elapsed
time exceeds the game duration budget sets active to false, makes no
Oracle call, appends no new Interaction, and returns an end-of-game result
with gameOver = true, final balance taken from the balanceAfter of the
most recent interaction (or INITIAL_BALANCE when no interaction exists,
which is what currentBalanceOf computes), and score = defeatedCount times
that final balance. -/
theorem c2_time_expiry (s : ServerState) (gameId : String)
    (message : Option String) (now : Int) (oracle : OracleOutcome) (game : Game)
    (hid : ¬ jsTrim gameId = "")
    (hfs : s.firestoreConfigured = true) (hllm : s.llmConfigured = true)
    (hg : s.game = some game) (hact : game.isActive = true)
    (hexp : now - game.createdAt > GAME_DURATION_MS) :
    (advanceTurn s gameId message now oracle).state.game =
      some { game with isActive := false } ∧
    (advanceTurn s gameId message now oracle).oracleCalled = false ∧
    (advanceTurn s gameId message now oracle).state.chats = s.chats ∧
    (advanceTurn s gameId message now oracle).result =
      .ok ⟨"Aika loppui! Peli päättyi.", currentBalanceOf s.chats, [], false, true, "",
           some ((calculateDefeatedFeissari s.chats : Int) * currentBalanceOf s.chats),
           calculateDefeatedFeissari s.chats⟩ := by
  refine ⟨?_, ?_, ?_, ?_⟩ <;>
    simp [advanceTurn, if_neg hid, hfs, hllm, hg, hact, hexp, calculateGameScore,
      recordLeaderboardIfAbsent_game, recordLeaderboardIfAbsent_chats]

/-- Witness for claim C2: a concrete expired session. -/
theorem c2_time_expiry_witness :
    ((¬ jsTrim "g1" = "" ∧ baseState.firestoreConfigured = true ∧
      baseState.llmConfigured = true ∧ baseState.game = some baseGame ∧
      baseGame.isActive = true ∧ 999999 - baseGame.createdAt > GAME_DURATION_MS) ∧
     ((advanceTurn baseState "g1" (some "x") 999999 .failure).state.game =
        some { baseGame with isActive := false } ∧
      (advanceTurn baseState "g1" (some "x") 999999 .failure).oracleCalled = false ∧
      (advanceTurn baseState "g1" (some "x") 999999 .failure).state.chats =
        baseState.chats ∧
      (advanceTurn baseState "g1" (some "x") 999999 .failure).result =
        .ok ⟨"Aika loppui! Peli päättyi.", currentBalanceOf baseState.chats, [], false,
             true, "",
             some ((calculateDefeatedFeissari baseState.chats : Int) *
               currentBalanceOf baseState.chats),
             calculateDefeatedFeissari baseState.chats⟩)) :=
  ⟨⟨by decide, rfl, rfl, rfl, rfl, by decide⟩,
   c2_time_expiry baseState "g1" (some "x") 999999 .failure baseGame
     (by decide) rfl rfl rfl rfl (by decide)⟩

/-- Claim C1: for every Oracle reply with well-typed fields (validation
returns ok) received on the main turn path — where the pre-call current
balance is positive — the validated balance never exceeds the current
balance and is never negative: a proposed balance above the current
balance is replaced by the current balance, and a negative one by 0; and
the Interaction then written records balanceBefore = the pre-call balance
and balanceAfter = this clamped value. -/
theorem c1_balance_clamped (s : ServerState) (gameId : String)
    (message : Option String) (now : Int) (r : RawLLMResponse)
    (game : Game) (feissari : Character) (resp : LLMResponse) (bal : Int)
    (hid : ¬ jsTrim gameId = "")
    (hfs : s.firestoreConfigured = true) (hllm : s.llmConfigured = true)
    (hg : s.game = some game) (hact : game.isActive = true)
    (hexp : ¬ now - game.createdAt > GAME_DURATION_MS)
    (hbal : 0 < currentBalanceOf s.chats)
    (hfind : s.feissarit.find? (fun f => f.id = game.currentFeissariId) = some feissari)
    (hnull : (message.isNone && (match latestChat s.chats with
        | some last => !last.movedToNext
        | none => false)) = false)
    (hok : validateResponse r feissari (currentBalanceOf s.chats) = .ok resp)
    (hraw : r.balance = .jnum bal) :
    (bal > currentBalanceOf s.chats → resp.balance = currentBalanceOf s.chats) ∧
    (bal < 0 → resp.balance = 0) ∧
    0 ≤ resp.balance ∧ resp.balance ≤ currentBalanceOf s.chats ∧
    ∃ chat : Chat,
      (advanceTurn s gameId message now (.reply r)).state.chats = s.chats ++ [chat] ∧
      chat.balanceBefore = currentBalanceOf s.chats ∧
      chat.balanceAfter = resp.balance := by
  obtain ⟨msg, bal2, e0, gn, hm, hb, he, hgn, hmne, hene, hresp⟩ :=
    validateResponse_ok_inv r feissari (currentBalanceOf s.chats) resp hok
  rw [hraw] at hb
  injection hb with hbb
  subst hbb
  have hbfacts : (bal > currentBalanceOf s.chats →
        resp.balance = currentBalanceOf s.chats) ∧
      (bal < 0 → resp.balance = 0) ∧
      0 ≤ resp.balance ∧ resp.balance ≤ currentBalanceOf s.chats := by
    subst hresp
    refine ⟨fun hgt => ?_, fun hlt => ?_, ?_, ?_⟩ <;> dsimp only <;>
      split_ifs <;> omega
  refine ⟨hbfacts.1, hbfacts.2.1, hbfacts.2.2.1, hbfacts.2.2.2, ?_⟩
  rw [advanceTurn_proceed s gameId message now (.reply r) game feissari hid hfs
    hllm hg hact hexp hbal hfind hnull]
  have hlr : getResponse feissari (currentBalanceOf s.chats) (.reply r) = resp := by
    simp [getResponse, hok]
  simp only [hlr]
  refine ⟨⟨game.currentFeissariId, feissari.name, nextTimestamp s.chats, message,
    resp.message, currentBalanceOf s.chats, resp.balance,
    (match feissari.emotes.find? (fun e => e.identifier = resp.emote) with
     | some e => e.assets
     | none => []), resp.goToNext⟩, ?_, rfl, rfl⟩
  by_cases hgo : resp.goToNext
  · have hne : s.feissarit ≠ [] :=
      List.ne_nil_of_mem (List.mem_of_find?_eq_some hfind)
    obtain ⟨nf, hnf⟩ := nextFeissariAfter_isSome s.feissarit game.currentFeissariId hne
    simp only [hgo, if_true, hnf, finishTurn_state_chats]
  · simp only [hgo, if_false, Bool.false_eq_true, finishTurn_state_chats]

/-- Witness for claim C1: current balance 50, proposed balance 80, and the
written interaction persists 50. -/
theorem c1_balance_clamped_witness :
    ((¬ jsTrim "g1" = "" ∧ baseState.firestoreConfigured = true ∧
      baseState.llmConfigured = true ∧ baseState.game = some baseGame ∧
      baseGame.isActive = true ∧ ¬ 1000 - baseGame.createdAt > GAME_DURATION_MS ∧
      0 < currentBalanceOf baseState.chats ∧
      baseState.feissarit.find? (fun f => f.id = baseGame.currentFeissariId) =
        some aaro ∧
      ((some "ok" : Option String).isNone && (match latestChat baseState.chats with
        | some last => !last.movedToNext
        | none => false)) = false ∧
      validateResponse raw80 aaro (currentBalanceOf baseState.chats) = .ok respC1 ∧
      raw80.balance = .jnum 80) ∧
     ((80 > currentBalanceOf baseState.chats →
         respC1.balance = currentBalanceOf baseState.chats) ∧
      ((80 : Int) < 0 → respC1.balance = 0) ∧
      0 ≤ respC1.balance ∧ respC1.balance ≤ currentBalanceOf baseState.chats ∧
      ∃ chat : Chat,
        (advanceTurn baseState "g1" (some "ok") 1000 (.reply raw80)).state.chats =
          baseState.chats ++ [chat] ∧
        chat.balanceBefore = currentBalanceOf baseState.chats ∧
        chat.balanceAfter = respC1.balance)) :=
  ⟨⟨by decide, rfl, rfl, rfl, rfl, by decide, by decide, by decide, rfl, rfl,
    rfl⟩,
   c1_balance_clamped baseState "g1" (some "ok") 1000 raw80 baseGame aaro respC1 80
     (by decide) rfl rfl rfl rfl (by decide) (by decide) (by decide) rfl rfl
     rfl⟩

/-- Claim C3: on the main turn path of an active, non-expired session with
positive pre-call balance, when the validated post-turn balance is ≤ 0 the
returned 200 result has gameOver = true and its score equals defeatedCount
times the pre-call current balance — not defeatedCount times the clamped
post-turn zero. -/
theorem c3_fatal_turn_score (s : ServerState) (gameId : String)
    (message : Option String) (now : Int) (oracle : OracleOutcome)
    (game : Game) (feissari : Character)
    (hid : ¬ jsTrim gameId = "")
    (hfs : s.firestoreConfigured = true) (hllm : s.llmConfigured = true)
    (hg : s.game = some game) (hact : game.isActive = true)
    (hexp : ¬ now - game.createdAt > GAME_DURATION_MS)
    (hbal : 0 < currentBalanceOf s.chats)
    (hfind : s.feissarit.find? (fun f => f.id = game.currentFeissariId) = some feissari)
    (hnull : (message.isNone && (match latestChat s.chats with
        | some last => !last.movedToNext
        | none => false)) = false)
    (hdep : (getResponse feissari (currentBalanceOf s.chats) oracle).balance ≤ 0) :
    ∃ resp : UpdateGameResponse,
      (advanceTurn s gameId message now oracle).result = .ok resp ∧
      resp.gameOver = true ∧
      resp.score = some ((resp.defeatedFeissari : Int) * currentBalanceOf s.chats) ∧
      (0 < resp.defeatedFeissari →
        resp.score ≠ some ((resp.defeatedFeissari : Int) * 0)) := by
  rw [advanceTurn_proceed s gameId message now oracle game feissari hid hfs hllm
    hg hact hexp hbal hfind hnull]
  have htail : ∀ s2 : ServerState,
      ∃ resp : UpdateGameResponse,
        (finishTurn s2 gameId game feissari
          (getResponse feissari (currentBalanceOf s.chats) oracle)
          (match feissari.emotes.find? (fun e => e.identifier =
             (getResponse feissari (currentBalanceOf s.chats) oracle).emote) with
           | some e => e.assets
           | none => [])
          (currentBalanceOf s.chats)
          (decide (now - game.createdAt > GAME_DURATION_MS))).result = .ok resp ∧
        resp.gameOver = true ∧
        resp.score = some ((resp.defeatedFeissari : Int) * currentBalanceOf s.chats) ∧
        (0 < resp.defeatedFeissari →
          resp.score ≠ some ((resp.defeatedFeissari : Int) * 0)) := by
    intro s2
    rw [finishTurn_result_eq]
    have hgOver : (decide ((getResponse feissari (currentBalanceOf s.chats)
          oracle).balance ≤ 0) ||
        decide (now - game.createdAt > GAME_DURATION_MS)) = true := by
      simp [hdep]
    have hscore :
        (if (decide ((getResponse feissari (currentBalanceOf s.chats)
              oracle).balance ≤ 0) ||
            decide (now - game.createdAt > GAME_DURATION_MS)) = true then
          if (getResponse feissari (currentBalanceOf s.chats) oracle).balance ≤ 0 then
            some ((calculateDefeatedFeissari s2.chats : Int) * currentBalanceOf s.chats)
          else
            some ((calculateDefeatedFeissari s2.chats : Int) *
              (getResponse feissari (currentBalanceOf s.chats) oracle).balance)
        else none) =
          some ((calculateDefeatedFeissari s2.chats : Int) * currentBalanceOf s.chats) := by
      rw [if_pos hgOver, if_pos hdep]
    refine ⟨_, rfl, hgOver, hscore, ?_⟩
    intro hd0
    have hd0' : 0 < calculateDefeatedFeissari s2.chats := hd0
    have hdposZ : (0 : Int) < (calculateDefeatedFeissari s2.chats : Int) := by
      exact_mod_cast hd0'
    have hpos := mul_pos hdposZ hbal
    intro hcontra
    dsimp only at hcontra
    rw [if_pos hgOver, if_pos hdep] at hcontra
    have heq := Option.some.inj hcontra
    rw [mul_zero] at heq
    rw [heq] at hpos
    exact lt_irrefl 0 hpos
  by_cases hgo : (getResponse feissari (currentBalanceOf s.chats) oracle).goToNext
  · have hne : s.feissarit ≠ [] :=
      List.ne_nil_of_mem (List.mem_of_find?_eq_some hfind)
    obtain ⟨nf, hnf⟩ := nextFeissariAfter_isSome s.feissarit game.currentFeissariId hne
    simp only [hgo, if_true, hnf]
    exact htail _
  · simp only [hgo, if_false, Bool.false_eq_true]
    exact htail _

/-- Witness for claim C3: a turn that deducts the whole balance of 50
after one defeated character scores 1 times 50. -/
theorem c3_fatal_turn_score_witness :
    ((¬ jsTrim "g1" = "" ∧ baseState.firestoreConfigured = true ∧
      baseState.llmConfigured = true ∧ baseState.game = some baseGame ∧
      baseGame.isActive = true ∧ ¬ 1000 - baseGame.createdAt > GAME_DURATION_MS ∧
      0 < currentBalanceOf baseState.chats ∧
      baseState.feissarit.find? (fun f => f.id = baseGame.currentFeissariId) =
        some aaro ∧
      ((some "x" : Option String).isNone && (match latestChat baseState.chats with
        | some last => !last.movedToNext
        | none => false)) = false ∧
      (getResponse aaro (currentBalanceOf baseState.chats) (.reply raw0)).balance ≤ 0) ∧
     (∃ resp : UpdateGameResponse,
        (advanceTurn baseState "g1" (some "x") 1000 (.reply raw0)).result = .ok resp ∧
        resp.gameOver = true ∧
        resp.score =
          some ((resp.defeatedFeissari : Int) * currentBalanceOf baseState.chats) ∧
        (0 < resp.defeatedFeissari →
          resp.score ≠ some ((resp.defeatedFeissari : Int) * 0)))) :=
  ⟨⟨by decide, rfl, rfl, rfl, rfl, by decide, by decide, by decide, rfl, by decide⟩,
   c3_fatal_turn_score baseState "g1" (some "x") 1000 (.reply raw0) baseGame aaro
     (by decide) rfl rfl rfl rfl (by decide) (by decide) (by decide) rfl (by decide)⟩

/-- Claim C6: advanceTurn with a null player message on an active,
non-expired, non-depleted session whose current character id resolves in
the catalog fails with BadRequest if and only if at least one interaction
exists and the most recent interaction overall (greatest timestamp) has
encounterResolved (movedToNext) = false; when no interaction exists or the
most recent one is resolved, the null-message turn proceeds to a 200
result. -/
theorem c6_null_message (s : ServerState) (gameId : String) (now : Int)
    (oracle : OracleOutcome) (game : Game) (feissari : Character)
    (hid : ¬ jsTrim gameId = "")
    (hfs : s.firestoreConfigured = true) (hllm : s.llmConfigured = true)
    (hg : s.game = some game) (hact : game.isActive = true)
    (hexp : ¬ now - game.createdAt > GAME_DURATION_MS)
    (hbal : 0 < currentBalanceOf s.chats)
    (hfind : s.feissarit.find? (fun f => f.id = game.currentFeissariId) = some feissari) :
    ((advanceTurn s gameId none now oracle).result.isBadRequest = true ↔
      (∃ last, latestChat s.chats = some last ∧ last.movedToNext = false)) ∧
    ((∀ last, latestChat s.chats = some last → last.movedToNext = true) →
      ∃ resp, (advanceTurn s gameId none now oracle).result = .ok resp) := by
  have hproceed : ∀ hnull : ((none : Option String).isNone &&
        (match latestChat s.chats with
         | some last => !last.movedToNext
         | none => false)) = false,
      ∃ resp, (advanceTurn s gameId none now oracle).result = .ok resp := by
    intro hnull
    rw [advanceTurn_proceed s gameId none now oracle game feissari hid hfs hllm
      hg hact hexp hbal hfind hnull]
    by_cases hgo : (getResponse feissari (currentBalanceOf s.chats) oracle).goToNext
    · have hne : s.feissarit ≠ [] :=
        List.ne_nil_of_mem (List.mem_of_find?_eq_some hfind)
      obtain ⟨nf, hnf⟩ :=
        nextFeissariAfter_isSome s.feissarit game.currentFeissariId hne
      simp only [hgo, if_true, hnf, finishTurn_result_eq]
      exact ⟨_, rfl⟩
    · simp only [hgo, if_false, Bool.false_eq_true, finishTurn_result_eq]
      exact ⟨_, rfl⟩
  cases hlast : latestChat s.chats with
  | none =>
    obtain ⟨resp, hresp⟩ := hproceed (by rw [hlast]; rfl)
    refine ⟨?_, fun _ => ⟨resp, hresp⟩⟩
    rw [hresp]
    simp [TurnResult.isBadRequest, hlast]
  | some last =>
    by_cases hmoved : last.movedToNext
    · obtain ⟨resp, hresp⟩ := hproceed (by rw [hlast]; simp [hmoved])
      refine ⟨?_, fun _ => ⟨resp, hresp⟩⟩
      rw [hresp]
      simp [TurnResult.isBadRequest, hmoved]
    · have hbal' : ¬ currentBalanceOf s.chats ≤ 0 := not_le.mpr hbal
      have hbr : (advanceTurn s gameId none now oracle).result =
          .badRequest "Invalid request: null message can only be sent after a feissari has been defeated" := by
        simp [advanceTurn, if_neg hid, hfs, hllm, hg, hact, if_neg hexp,
          if_neg hbal', hfind, hlast, hmoved]
      constructor
      · rw [hbr]
        simp only [TurnResult.isBadRequest, true_iff]
        exact ⟨last, rfl, by simpa using hmoved⟩
      · intro hall
        exact absurd (hall last rfl) hmoved

/-- Witness for claim C6: on the fixture session whose most recent
interaction is resolved, the null-message turn is not rejected and
proceeds. -/
theorem c6_null_message_witness :
    ((¬ jsTrim "g1" = "" ∧ baseState.firestoreConfigured = true ∧
      baseState.llmConfigured = true ∧ baseState.game = some baseGame ∧
      baseGame.isActive = true ∧ ¬ 1000 - baseGame.createdAt > GAME_DURATION_MS ∧
      0 < currentBalanceOf baseState.chats ∧
      baseState.feissarit.find? (fun f => f.id = baseGame.currentFeissariId) =
        some aaro) ∧
     (((advanceTurn baseState "g1" none 1000 .failure).result.isBadRequest = true ↔
        (∃ last, latestChat baseState.chats = some last ∧ last.movedToNext = false)) ∧
      ((∀ last, latestChat baseState.chats = some last → last.movedToNext = true) →
        ∃ resp, (advanceTurn baseState "g1" none 1000 .failure).result = .ok resp))) :=
  ⟨⟨by decide, rfl, rfl, rfl, rfl, by decide, by decide, by decide⟩,
   c6_null_message baseState "g1" 1000 .failure baseGame aaro
     (by decide) rfl rfl rfl rfl (by decide) (by decide) (by decide)⟩

/-- Claim C7: on the main turn path, when the Oracle reply resolves the
encounter (goToNext = true), currentFeissariId is updated to the
deterministic ring-successor: a catalog member with the smallest id
strictly greater than the current id, wrapping to the member with the
smallest id overall when no greater id exists; and the 200 response of the
same turn still reports the name, reply message, and expression assets of
the character that was just resolved. -/
theorem c7_ring_successor (s : ServerState) (gameId : String)
    (message : Option String) (now : Int) (oracle : OracleOutcome)
    (game : Game) (feissari : Character)
    (hid : ¬ jsTrim gameId = "")
    (hfs : s.firestoreConfigured = true) (hllm : s.llmConfigured = true)
    (hg : s.game = some game) (hact : game.isActive = true)
    (hexp : ¬ now - game.createdAt > GAME_DURATION_MS)
    (hbal : 0 < currentBalanceOf s.chats)
    (hfind : s.feissarit.find? (fun f => f.id = game.currentFeissariId) = some feissari)
    (hnull : (message.isNone && (match latestChat s.chats with
        | some last => !last.movedToNext
        | none => false)) = false)
    (hgo : (getResponse feissari (currentBalanceOf s.chats) oracle).goToNext = true) :
    ∃ nf : Character,
      nextFeissariAfter s.feissarit game.currentFeissariId = some nf ∧
      nf ∈ s.feissarit ∧
      ((∃ g ∈ s.feissarit, game.currentFeissariId < g.id) →
        game.currentFeissariId < nf.id ∧
        ∀ g ∈ s.feissarit, game.currentFeissariId < g.id → nf.id ≤ g.id) ∧
      ((∀ g ∈ s.feissarit, ¬ game.currentFeissariId < g.id) →
        ∀ g ∈ s.feissarit, nf.id ≤ g.id) ∧
      (∃ g', (advanceTurn s gameId message now oracle).state.game = some g' ∧
        g'.currentFeissariId = nf.id) ∧
      (∃ resp, (advanceTurn s gameId message now oracle).result = .ok resp ∧
        resp.feissariName = feissari.name ∧
        resp.message = (getResponse feissari (currentBalanceOf s.chats) oracle).message ∧
        resp.emoteAssets = (match feissari.emotes.find? (fun e => e.identifier =
            (getResponse feissari (currentBalanceOf s.chats) oracle).emote) with
          | some e => e.assets
          | none => []) ∧
        resp.goToNext = true) := by
  have hne : s.feissarit ≠ [] :=
    List.ne_nil_of_mem (List.mem_of_find?_eq_some hfind)
  obtain ⟨nf, hnf⟩ := nextFeissariAfter_isSome s.feissarit game.currentFeissariId hne
  obtain ⟨hmem, hspec1, hspec2⟩ :=
    nextFeissariAfter_spec s.feissarit game.currentFeissariId nf hnf
  rw [advanceTurn_proceed s gameId message now oracle game feissari hid hfs hllm
    hg hact hexp hbal hfind hnull]
  simp only [hgo, if_true, hnf]
  refine ⟨nf, rfl, hmem, hspec1, hspec2, ?_, ?_⟩
  · rcases finishTurn_state_game _ gameId game feissari _ _ _ _ with hcase | hcase
    · exact ⟨{ game with currentFeissariId := nf.id }, by rw [hcase], rfl⟩
    · exact ⟨{ game with currentFeissariId := nf.id, isActive := false },
        by rw [hcase]; rfl, rfl⟩
  · rw [finishTurn_result_eq]
    exact ⟨_, rfl, rfl, rfl, rfl, hgo⟩

/-- Witness for claim C7: a one-character catalog, where the successor of
the only character wraps around to itself, and the response still names the
resolved character. -/
theorem c7_ring_successor_witness :
    ((¬ jsTrim "g1" = "" ∧ baseState.firestoreConfigured = true ∧
      baseState.llmConfigured = true ∧ baseState.game = some baseGame ∧
      baseGame.isActive = true ∧ ¬ 1000 - baseGame.createdAt > GAME_DURATION_MS ∧
      0 < currentBalanceOf baseState.chats ∧
      baseState.feissarit.find? (fun f => f.id = baseGame.currentFeissariId) =
        some aaro ∧
      ((some "x" : Option String).isNone && (match latestChat baseState.chats with
        | some last => !last.movedToNext
        | none => false)) = false ∧
      (getResponse aaro (currentBalanceOf baseState.chats)
        (.reply raw80go)).goToNext = true) ∧
     (∃ nf : Character,
       nextFeissariAfter baseState.feissarit baseGame.currentFeissariId = some nf ∧
       nf ∈ baseState.feissarit ∧
       ((∃ g ∈ baseState.feissarit, baseGame.currentFeissariId < g.id) →
         baseGame.currentFeissariId < nf.id ∧
         ∀ g ∈ baseState.feissarit, baseGame.currentFeissariId < g.id → nf.id ≤ g.id) ∧
       ((∀ g ∈ baseState.feissarit, ¬ baseGame.currentFeissariId < g.id) →
         ∀ g ∈ baseState.feissarit, nf.id ≤ g.id) ∧
       (∃ g', (advanceTurn baseState "g1" (some "x") 1000
           (.reply raw80go)).state.game = some g' ∧
         g'.currentFeissariId = nf.id) ∧
       (∃ resp, (advanceTurn baseState "g1" (some "x") 1000
           (.reply raw80go)).result = .ok resp ∧
         resp.feissariName = aaro.name ∧
         resp.message = (getResponse aaro (currentBalanceOf baseState.chats)
           (.reply raw80go)).message ∧
         resp.emoteAssets = (match aaro.emotes.find? (fun e => e.identifier =
             (getResponse aaro (currentBalanceOf baseState.chats)
               (.reply raw80go)).emote) with
           | some e => e.assets
           | none => []) ∧
         resp.goToNext = true))) :=
  ⟨⟨by decide, rfl, rfl, rfl, rfl, by decide, by decide, by decide, rfl, by decide⟩,
   c7_ring_successor baseState "g1" (some "x") 1000 (.reply raw80go) baseGame aaro
     (by decide) rfl rfl rfl rfl (by decide) (by decide) (by decide) rfl (by decide)⟩

/-- Claim C10: when a main-path turn depletes the balance to ≤ 0 and no
leaderboard entry exists yet for this game, the LeaderboardEntry written
stores finalBalance = the clamped post-turn balance, which equals 0, while
its stored score equals defeatedCount times the pre-turn balance;
consequently, for such an entry with defeatedCount > 0, the stored score
differs from defeatedCount times the stored finalBalance. -/
theorem c10_leaderboard_fatal (s : ServerState) (gameId : String)
    (message : Option String) (now : Int) (oracle : OracleOutcome)
    (game : Game) (feissari : Character)
    (hid : ¬ jsTrim gameId = "")
    (hfs : s.firestoreConfigured = true) (hllm : s.llmConfigured = true)
    (hg : s.game = some game) (hact : game.isActive = true)
    (hexp : ¬ now - game.createdAt > GAME_DURATION_MS)
    (hbal : 0 < currentBalanceOf s.chats)
    (hfind : s.feissarit.find? (fun f => f.id = game.currentFeissariId) = some feissari)
    (hnull : (message.isNone && (match latestChat s.chats with
        | some last => !last.movedToNext
        | none => false)) = false)
    (hdep : (getResponse feissari (currentBalanceOf s.chats) oracle).balance ≤ 0)
    (habsent : s.leaderboard.any (fun e => e.gameId = gameId) = false) :
    ∃ entry : LeaderboardEntry,
      (advanceTurn s gameId message now oracle).state.leaderboard =
        s.leaderboard ++ [entry] ∧
      entry.finalBalance =
        (getResponse feissari (currentBalanceOf s.chats) oracle).balance ∧
      entry.finalBalance = 0 ∧
      entry.score = (entry.defeatedFeissari : Int) * currentBalanceOf s.chats ∧
      (0 < entry.defeatedFeissari →
        entry.score ≠ (entry.defeatedFeissari : Int) * entry.finalBalance) := by
  have hzero : (getResponse feissari (currentBalanceOf s.chats) oracle).balance = 0 :=
    le_antisymm hdep
      (getResponse_balance_bounds feissari (currentBalanceOf s.chats) oracle
        (le_of_lt hbal)).1
  have htail : ∀ s2 : ServerState,
      s2.leaderboard = s.leaderboard → s2.userName = s.userName →
      ∃ entry : LeaderboardEntry,
        (finishTurn s2 gameId game feissari
          (getResponse feissari (currentBalanceOf s.chats) oracle)
          (match feissari.emotes.find? (fun e => e.identifier =
             (getResponse feissari (currentBalanceOf s.chats) oracle).emote) with
           | some e => e.assets
           | none => [])
          (currentBalanceOf s.chats)
          (decide (now - game.createdAt > GAME_DURATION_MS))).state.leaderboard =
          s.leaderboard ++ [entry] ∧
        entry.finalBalance =
          (getResponse feissari (currentBalanceOf s.chats) oracle).balance ∧
        entry.finalBalance = 0 ∧
        entry.score = (entry.defeatedFeissari : Int) * currentBalanceOf s.chats ∧
        (0 < entry.defeatedFeissari →
          entry.score ≠ (entry.defeatedFeissari : Int) * entry.finalBalance) := by
    intro s2 hlb hun
    have habsent2 : s2.leaderboard.any (fun e => e.gameId = gameId) = false := by
      rw [hlb]; exact habsent
    rw [finishTurn_state_leaderboard_depleted s2 gameId game feissari _ _ _ _
      hdep habsent2, hlb]
    refine ⟨_, rfl, rfl, ?_, rfl, ?_⟩
    · exact hzero
    · intro hd0
      dsimp only at hd0 ⊢
      rw [hzero, mul_zero]
      have hdposZ : (0 : Int) < (calculateDefeatedFeissari s2.chats : Int) := by
        exact_mod_cast hd0
      have hpos := mul_pos hdposZ hbal
      intro hcontra
      rw [hcontra] at hpos
      exact lt_irrefl 0 hpos
  rw [advanceTurn_proceed s gameId message now oracle game feissari hid hfs hllm
    hg hact hexp hbal hfind hnull]
  by_cases hgo : (getResponse feissari (currentBalanceOf s.chats) oracle).goToNext
  · have hne : s.feissarit ≠ [] :=
      List.ne_nil_of_mem (List.mem_of_find?_eq_some hfind)
    obtain ⟨nf, hnf⟩ := nextFeissariAfter_isSome s.feissarit game.currentFeissariId hne
    simp only [hgo, if_true, hnf]
    exact htail _ rfl rfl
  · simp only [hgo, if_false, Bool.false_eq_true]
    exact htail _ rfl rfl

/-- Witness for claim C10: the fatal turn of the fixture session writes an
entry with finalBalance 0 and score 50 = 1 times the pre-turn balance. -/
theorem c10_leaderboard_fatal_witness :
    ((¬ jsTrim "g1" = "" ∧ baseState.firestoreConfigured = true ∧
      baseState.llmConfigured = true ∧ baseState.game = some baseGame ∧
      baseGame.isActive = true ∧ ¬ 1000 - baseGame.createdAt > GAME_DURATION_MS ∧
      0 < currentBalanceOf baseState.chats ∧
      baseState.feissarit.find? (fun f => f.id = baseGame.currentFeissariId) =
        some aaro ∧
      ((some "x" : Option String).isNone && (match latestChat baseState.chats with
        | some last => !last.movedToNext
        | none => false)) = false ∧
      (getResponse aaro (currentBalanceOf baseState.chats)
        (.reply raw0)).balance ≤ 0 ∧
      baseState.leaderboard.any (fun e => e.gameId = "g1") = false) ∧
     (∃ entry : LeaderboardEntry,
       (advanceTurn baseState "g1" (some "x") 1000
          (.reply raw0)).state.leaderboard = baseState.leaderboard ++ [entry] ∧
       entry.finalBalance =
         (getResponse aaro (currentBalanceOf baseState.chats) (.reply raw0)).balance ∧
       entry.finalBalance = 0 ∧
       entry.score = (entry.defeatedFeissari : Int) * currentBalanceOf baseState.chats ∧
       (0 < entry.defeatedFeissari →
         entry.score ≠ (entry.defeatedFeissari : Int) * entry.finalBalance))) :=
  ⟨⟨by decide, rfl, rfl, rfl, rfl, by decide, by decide, by decide, rfl, by decide,
    rfl⟩,
   c10_leaderboard_fatal baseState "g1" (some "x") 1000 (.reply raw0) baseGame aaro
     (by decide) rfl rfl rfl rfl (by decide) (by decide) (by decide) rfl (by decide)
     rfl⟩

end Feissari
